import Mathlib

set_option autoImplicit false

namespace Infomapmex

/- Batteries marks the `Rat` arithmetic operations `@[irreducible]`, which
stops `decide` from evaluating concrete rational expressions; re-allow
unfolding locally so that concrete runs of the embedded program reduce. -/
attribute [local semireducible] Rat.ofScientific Rat.mul Rat.inv Rat.add Rat.sub

instance {ε α : Type} [DecidableEq ε] [DecidableEq α] : DecidableEq (Except ε α) := fun a b =>
  match a, b with
  | .error e, .error f => decidable_of_iff (e = f) (by simp)
  | .ok x, .ok y => decidable_of_iff (x = y) (by simp)
  | .error _, .ok _ => isFalse (by simp)
  | .ok _, .error _ => isFalse (by simp)

/-! Shallow embedding of `src/infomapmex.cpp` (the PACO/Infomap MATLAB mex
adapter).  MATLAB `mxArray` values are modelled through exactly the fields the
C code reads via the mex API; doubles are modelled as rationals. -/

/-- Model of a MATLAB `mxArray` as seen through the mex API calls the code
performs (`mxGetM`, `mxGetN`, `mxIsChar`, `mxIsComplex`, `mxIsCell`,
`mxIsNumeric`, `mxArrayToString`, `mxGetPr`).  `re` is the real data in
column-major order as returned by `mxGetPr`; `strVal` is the text of a char
array as returned by `mxArrayToString`. -/
structure MxArray where
  m : Nat
  n : Nat
  isChar : Bool
  isComplex : Bool
  isCell : Bool
  isNumeric : Bool
  strVal : String
  re : List ℚ
  deriving DecidableEq

/-- A char-array argument, as produced by a MATLAB string literal. -/
def charArg (s : String) : MxArray :=
  ⟨1, s.length, true, false, false, false, s, []⟩

/-- A numeric scalar argument. -/
def numArg (v : ℚ) : MxArray :=
  ⟨1, 1, false, false, false, true, "", [v]⟩

/-- The `error_type` enumeration of `infomapmex.cpp`. -/
inductive ErrorType where
  | noError
  | tooManyOutputArgs
  | notEnoughArgs
  | argValue
  | argType
  | matrixErr
  | argEmpty
  | argUnknown
  deriving DecidableEq

/-- The `error_strings` table of `infomapmex.cpp` (the fifth entry is a spliced
C string literal: the backslash-newline keeps the following line's four leading
spaces). -/
def error_strings : ErrorType → String
  | .noError => ""
  | .tooManyOutputArgs => "Too many output arguments."
  | .notEnoughArgs => "Not enough input arguments."
  | .argValue => "Non valid argument value."
  | .argType => "Non valid argument type."
  | .matrixErr => "Non valid input adjacency matrix. PACO accepts symmetric real dense-type (n x n) matrices or sparse edges-list representation     [num_edges x 3] array of edges list with edge endpoints and weight."
  | .argEmpty => "Expected some argument value but empty found."
  | .argUnknown => "Unkwown argument."

/-- ASCII lower-casing of one character (model of `tolower` as used by
`strcasecmp`). -/
def lowerChar (c : Char) : Char :=
  if 65 ≤ c.toNat ∧ c.toNat ≤ 90 then Char.ofNat (c.toNat + 32) else c

/-- ASCII lower-casing of a string; `strcasecmp(a, b) == 0` is modelled as
`lowerString a = lowerString b`. -/
def lowerString (s : String) : String :=
  ⟨s.data.map lowerChar⟩

/-- Exactly six decimal digits of `f` (used for the fractional part written by
`std::to_string`, which formats a `double` with `%f`, i.e. six fractional
digits). -/
def pad6 (f : Nat) : String :=
  ⟨[Nat.digitChar (f / 100000 % 10), Nat.digitChar (f / 10000 % 10),
    Nat.digitChar (f / 1000 % 10), Nat.digitChar (f / 100 % 10),
    Nat.digitChar (f / 10 % 10), Nat.digitChar (f % 10)]⟩

/-- Model of C++ `std::to_string` on a `double`: `sprintf("%f", v)`, six
fractional digits, rounding to the nearest (ties taken half-up here; the
program only ever renders values that are not ties). -/
def toString6 (q : ℚ) : String :=
  let t : ℤ := ⌊q * 1000000 + 1 / 2⌋
  (if t < 0 then "-" else "") ++
    toString (t.natAbs / 1000000) ++ "." ++ pad6 (t.natAbs % 1000000)

/-- Splits a character list at spaces (auxiliary for `tokens`). -/
def splitAux : List Char → List Char → List (List Char)
  | [], acc => [acc.reverse]
  | c :: cs, acc =>
    if c = ' ' then acc.reverse :: splitAux cs [] else splitAux cs (c :: acc)

/-- The space-delimited tokens of a string (used to state which whole tokens
appear in a configuration string). -/
def tokens (s : String) : List String :=
  (splitAux s.data []).map String.mk

/-- The option-string chunk `parse_args` appends for one accepted
(name, value) pair, keyed by the lower-cased name (a statement-side summary
of the four accepting branches of the loop). -/
def flagChunk (lname : String) (v : ℚ) : String :=
  if lname = "n" then " -N" ++ toString6 v ++ " "
  else if lname = "p" then " -p" ++ toString6 v ++ " "
  else if lname = "y" then " -y" ++ toString6 v ++ " "
  else " --markov-time " ++ toString6 v ++ " "

/-- Whether the lower-cased name's value is out of its documented range
(`N` and `markov-time` require `v ≥ 0`; `p` and `y` require `v ∈ [0,1]`); a
statement-side summary of the range tests of the four accepting branches. -/
def valueOutOfRange (lname : String) (v : ℚ) : Bool :=
  if lname = "n" then decide (v < 0)
  else if lname = "p" then decide (v < 0 ∨ 1 < v)
  else if lname = "y" then decide (v < 0 ∨ 1 < v)
  else decide (v < 0)

/-- The argument loop of `parse_args` (`while (argcount < nInputArgs)`): walks
the arguments after the matrix two at a time.  `pos` is `argcount`, the index
of the first argument of the current pair within the full input-argument
list.  On success it returns the accumulated option string.  The name
comparisons model `strcasecmp(cpartype, ...) == 0`. -/
def parseLoop : List MxArray → Nat → Except (ErrorType × Nat) String
  | [], _ => .ok ""
  | [_], pos => .error (.argEmpty, pos)
  | partype :: parval :: rest, pos =>
    if partype.isChar && !parval.isChar then
      let lname := lowerString partype.strVal
      let v := parval.re.headD 0
      if lname = lowerString "N" then
        if v < 0 then .error (.argValue, pos + 1)
        else (parseLoop rest (pos + 2)).map (fun s => " -N" ++ toString6 v ++ " " ++ s)
      else if lname = lowerString "p" then
        if v < 0 ∨ 1 < v then .error (.argValue, pos + 1)
        else (parseLoop rest (pos + 2)).map (fun s => " -p" ++ toString6 v ++ " " ++ s)
      else if lname = lowerString "y" then
        if v < 0 ∨ 1 < v then .error (.argValue, pos + 1)
        else (parseLoop rest (pos + 2)).map (fun s => " -y" ++ toString6 v ++ " " ++ s)
      else if lname = lowerString "markov-time" then
        if v < 0 then .error (.argValue, pos + 1)
        else (parseLoop rest (pos + 2)).map (fun s => " --markov-time " ++ toString6 v ++ " " ++ s)
      else .error (.argUnknown, pos)
    else .error (.argType, pos)

/-- The `feedingSparseMatrix` test: an argument with 3 columns and more than 3
rows is interpreted as a triplet list rather than a dense adjacency matrix. -/
def feedingSparseMatrix (w : MxArray) : Bool :=
  w.n == 3 && decide (3 < w.m)

/-- The matrix validity checks `v1 || v2 || v3 || v4 || v5` of `parse_args`:
non-square (unless triplet form), complex, empty, cell, or non-numeric. -/
def matrixCheckFails (w : MxArray) : Bool :=
  let v1 := (w.m != w.n) && !feedingSparseMatrix w
  let v2 := w.isComplex
  let v3 := w.m == 0 || w.n == 0
  let v4 := w.isCell
  let v5 := !w.isNumeric
  v1 || v2 || v3 || v4 || v5

/-- `parse_args`: requires at least one input argument and at most two output
arguments, validates the matrix argument, then walks the remaining arguments
starting at position 1.  On success returns the accumulated option string. -/
def parse_args (nOutputArgs : Nat) (inputArgs : List MxArray) :
    Except (ErrorType × Nat) String :=
  match inputArgs with
  | [] => .error (.notEnoughArgs, 0)
  | w :: rest =>
    if 2 < nOutputArgs then .error (.tooManyOutputArgs, 0)
    else if matrixCheckFails w then .error (.matrixErr, 0)
    else parseLoop rest 1

/-- One row of a triplet list: `(row-index, column-index, weight)`, all
doubles in the source. -/
abbrev Triplet := ℚ × ℚ × ℚ

/-- `B1.sum()`: the number of triplet rows whose row-index is ≥ its
column-index. -/
def sum1 (rows : List Triplet) : Nat :=
  rows.countP (fun t => decide (t.2.1 ≤ t.1))

/-- `B2.sum()`: the number of triplet rows whose row-index is < its
column-index. -/
def sum2 (rows : List Triplet) : Nat :=
  rows.countP (fun t => decide (t.1 < t.2.1))

/-- The `isSymmetric` flag: `sum1 == sum2`. -/
def isSymmetric (rows : List Triplet) : Bool :=
  sum1 rows == sum2 rows

/-- The `isUpperTriangular` flag: `sum1 == 0 && sum2 == M`. -/
def isUpperTriangular (rows : List Triplet) : Bool :=
  sum1 rows == 0 && sum2 rows == rows.length

/-- The `isLowerTriangular` flag: `sum1 == M && sum2 == 0`. -/
def isLowerTriangular (rows : List Triplet) : Bool :=
  sum1 rows == rows.length && sum2 rows == 0

/-- An edge pushed onto `edges_list`/`edges_weights`: the source code pushes
`column_node-1`, then `row_node-1`, then the weight. -/
structure Edge where
  src : ℚ
  dst : ℚ
  w : ℚ
  deriving DecidableEq

/-- The edge the loop body builds from a triplet `(r, c, w)`:
`Edge(c-1, r-1, w)`. -/
def edgeOfTriplet (t : Triplet) : Edge :=
  ⟨t.2.1 - 1, t.1 - 1, t.2.2⟩

/-- The per-row emission of the edge-building loop: triangular forms emit
every row; the symmetric form emits only rows with `row_node < column_node`. -/
def emitEdge (upper lower symm : Bool) (t : Triplet) : Option Edge :=
  if upper || lower then some (edgeOfTriplet t)
  else if symm then
    if t.1 < t.2.1 then some (edgeOfTriplet t) else none
  else none

/-- The message of the `std::logic_error` thrown when a triplet list is
neither count-symmetric nor purely triangular. -/
def classificationErrorMsg : String :=
  "Matrix is not symmetric, nor triangular lower or upper triangular. Check diagonal and non symmetric values."

/-- The sparse branch of `mexFunction`: classify the triplet list, throw on an
invalid shape, otherwise build the edge list row by row in input order. -/
def buildEdges (rows : List Triplet) : Except String (List Edge) :=
  let symm := isSymmetric rows
  let upper := isUpperTriangular rows
  let lower := isLowerTriangular rows
  if !symm && !upper && !lower then .error classificationErrorMsg
  else .ok (rows.filterMap (emitEdge upper lower symm))

/-- The spec's MatrixShape tag for a triplet list, derived from the three
flags with the loop's priority (the loop tests the triangular flags before
the symmetric one). -/
inductive MatrixShape where
  | sparseSymmetric
  | sparseUpperTriangular
  | sparseLowerTriangular
  | sparseInvalid
  deriving DecidableEq

/-- Classification of a triplet list as a single tag. -/
def classify (rows : List Triplet) : MatrixShape :=
  if isUpperTriangular rows then .sparseUpperTriangular
  else if isLowerTriangular rows then .sparseLowerTriangular
  else if isSymmetric rows then .sparseSymmetric
  else .sparseInvalid

/-- Row `l` of the `Mx3` triplet array: `mxGetPr` data is column-major, so
`IJW(l, j)` is element `l + j*M` of the flat data. -/
def tripletRow (w : MxArray) (l : Nat) : Triplet :=
  (w.re.getD l 0, w.re.getD (l + w.m) 0, w.re.getD (l + 2 * w.m) 0)

/-- The triplet rows read by the edge-building loop (`l = 0 .. M-1`). -/
def triplets (w : MxArray) : List Triplet :=
  (List.range w.m).map (tripletRow w)

/-- What is handed to the clustering engine: either the edge list built from a
triplet input or the dense data passed through unchanged
(`GraphC(mxGetPr(inputArgs[0]), N, N)`). -/
inductive GraphInput where
  | sparse (edges : List Edge)
  | dense (data : List ℚ) (n : Nat)
  deriving DecidableEq

/-- The observable outcome of `mexFunction` up to the external engine call:
either the invocation aborts through `mexErrMsgTxt` with a single message and
no outputs, or the engine is invoked on a graph and an option string. -/
inductive MexOutcome where
  | aborted (msg : String)
  | engineCall (g : GraphInput) (options : String)
  deriving DecidableEq

/-- The error message printed by `mexFunction` for a `parse_args` failure:
`"Error at argument: " << pos << ": " << error_strings[err]`. -/
def mexErrorMessage (e : ErrorType) (pos : Nat) : String :=
  "Error at argument: " ++ toString pos ++ ": " ++ error_strings e

/-- `mexFunction` up to the engine call: parse the arguments (aborting with
the formatted message on error; the `NotEnoughArguments` case also prints a
usage line first), then either build the sparse edge list (aborting with the
caught exception's message if classification fails) or pass the dense data
through, and append `--two-level` to the option string. -/
def mexFunction (nOutputArgs : Nat) (inputArgs : List MxArray) : MexOutcome :=
  match parse_args nOutputArgs inputArgs with
  | .error (e, pos) => .aborted (mexErrorMessage e pos)
  | .ok opts =>
    match inputArgs with
    | [] => .aborted ""   -- unreachable: `parse_args` rejects an empty input list
    | w :: _ =>
      if decide (3 < w.m) && w.n == 3 then
        match buildEdges (triplets w) with
        | .error msg => .aborted msg
        | .ok edges => .engineCall (.sparse edges) (opts ++ "--two-level")
      else .engineCall (.dense w.re w.n) (opts ++ "--two-level")

/-- A concrete 4×3 triplet input (column-major data) whose rows are
`(1,1,1), (2,1,1), (3,1,1), (1,2,1)`: three rows have row ≥ col and one has
row < col, so it is neither count-symmetric nor purely triangular. -/
def unbalancedTriplet : MxArray :=
  ⟨4, 3, false, false, false, true, "", [1, 2, 3, 1, 1, 1, 1, 2, 1, 1, 1, 1]⟩

/-- One leaf of the engine's hierarchical output: `originalLeafIndex` and
`parentNode->parentIndex`. -/
structure Leaf where
  originalLeafIndex : Nat
  parentIdx : Nat
  deriving DecidableEq

/-- The engine's result as consumed by the output-mapping code: the leaf
traversal and the codelength. -/
structure EngineResult where
  leaves : List Leaf
  codelength : ℚ
  deriving DecidableEq

/-- The leaf loop: `membership.at(leafIt->originalLeafIndex) = parentIndex`.
`std::vector::at` is bounds-checked, so an out-of-range index throws (and the
invocation aborts) instead of writing out of bounds. -/
def applyLeaves : List Leaf → List ℚ → Option (List ℚ)
  | [], mem => some mem
  | l :: ls, mem =>
    if l.originalLeafIndex < mem.length then
      applyLeaves ls (mem.set l.originalLeafIndex (l.parentIdx : ℚ))
    else none

/-- The output mapping: a zero-initialised membership vector of one entry per
node, filled from the leaf traversal, paired with the codelength copied
verbatim (`mxCreateDoubleScalar(resultNetwork.codelength())`). -/
def mapResult (nNodes : Nat) (res : EngineResult) : Option (List ℚ × ℚ) :=
  (applyLeaves res.leaves (List.replicate nNodes 0)).map (fun mem => (mem, res.codelength))

/-! Helper lemmas. -/

/-- Every triplet row has either row ≥ col or row < col, so the two counts
always add up to the number of rows. -/
theorem sum1_add_sum2 (rows : List Triplet) : sum1 rows + sum2 rows = rows.length := by
  unfold sum1 sum2
  induction rows with
  | nil => rfl
  | cons t ts ih =>
    rcases le_or_lt t.2.1 t.1 with h | h
    · have h' : ¬(t.1 < t.2.1) := not_lt.mpr h
      simp only [List.countP_cons, List.length_cons]
      simp [h, h']
      omega
    · have h' : ¬(t.2.1 ≤ t.1) := not_le.mpr h
      simp only [List.countP_cons, List.length_cons]
      simp [h, h']
      omega

/-- Characterisation of `isUpperTriangular`. -/
theorem isUpperTriangular_iff (rows : List Triplet) :
    isUpperTriangular rows = true ↔ (sum1 rows = 0 ∧ sum2 rows = rows.length) := by
  simp [isUpperTriangular]

/-- Characterisation of `isLowerTriangular`. -/
theorem isLowerTriangular_iff (rows : List Triplet) :
    isLowerTriangular rows = true ↔ (sum1 rows = rows.length ∧ sum2 rows = 0) := by
  simp [isLowerTriangular]

/-- Characterisation of `isSymmetric`. -/
theorem isSymmetric_iff (rows : List Triplet) :
    isSymmetric rows = true ↔ sum1 rows = sum2 rows := by
  simp [isSymmetric]

/-- `buildEdges` fails exactly when all three flags are false. -/
theorem buildEdges_error_iff (rows : List Triplet) :
    buildEdges rows = .error classificationErrorMsg ↔
      (isSymmetric rows = false ∧ isUpperTriangular rows = false ∧
        isLowerTriangular rows = false) := by
  simp only [buildEdges]
  split_ifs with h
  · simp only [Bool.and_eq_true, Bool.not_eq_true'] at h
    obtain ⟨⟨h1, h2⟩, h3⟩ := h
    simp [h1, h2, h3]
  · constructor
    · intro hc
      simp at hc
    · rintro ⟨h1, h2, h3⟩
      exact h (by simp [h1, h2, h3])

/-- Filtering with an `if … then some … else none` body is filter-then-map. -/
theorem filterMap_ite {α β : Type} (p : α → Prop) [DecidablePred p] (f : α → β)
    (l : List α) :
    l.filterMap (fun a => if p a then some (f a) else none) =
      (l.filter (fun a => decide (p a))).map f := by
  induction l with
  | nil => rfl
  | cons a l ih =>
    by_cases h : p a <;> simp [List.filterMap_cons, List.filter_cons, h, ih]

/-- A `filterMap` that always succeeds is a `map`. -/
theorem filterMap_some {α β : Type} (f : α → β) (l : List α) :
    l.filterMap (fun a => some (f a)) = l.map f := by
  induction l with
  | nil => rfl
  | cons a l ih => simp [List.filterMap_cons, ih]

/-- When some flag is set, `buildEdges` succeeds with the loop's emissions. -/
theorem buildEdges_ok (rows : List Triplet)
    (h : ¬(!isSymmetric rows && !isUpperTriangular rows && !isLowerTriangular rows) = true) :
    buildEdges rows =
      .ok (rows.filterMap
        (emitEdge (isUpperTriangular rows) (isLowerTriangular rows) (isSymmetric rows))) := by
  simp only [buildEdges]
  rw [if_neg h]

/-- With a triangular flag set, the loop body emits every row. -/
theorem emitEdge_triangular (u l s : Bool) (h : u = true ∨ l = true) :
    emitEdge u l s = fun t => some (edgeOfTriplet t) := by
  funext t
  rcases h with h | h <;> simp [emitEdge, h]

/-- With only the symmetric flag set, the loop body keeps exactly the rows
with row-index < column-index. -/
theorem emitEdge_symmetric :
    emitEdge false false true =
      fun t : Triplet => if t.1 < t.2.1 then some (edgeOfTriplet t) else none := by
  funext t
  simp [emitEdge]

/-! Claim theorems. -/

/-- C1: for a triplet list with more than 3 rows, letting `sum1` count rows
with row-index ≥ column-index and `sum2` the rows with row-index <
column-index, classification returns SparseSymmetric exactly when
`sum1 = sum2`, SparseUpperTriangular exactly when `sum1 = 0 ∧ sum2 = M`,
SparseLowerTriangular exactly when `sum1 = M ∧ sum2 = 0`, and in the one
remaining case fails with the InvalidMatrix error; no other outcome is
possible. -/
theorem claim_C1_classification (rows : List Triplet) (hM : 3 < rows.length) :
    (classify rows = .sparseSymmetric ↔ sum1 rows = sum2 rows) ∧
    (classify rows = .sparseUpperTriangular ↔ sum1 rows = 0 ∧ sum2 rows = rows.length) ∧
    (classify rows = .sparseLowerTriangular ↔ sum1 rows = rows.length ∧ sum2 rows = 0) ∧
    (classify rows = .sparseInvalid ↔ buildEdges rows = .error classificationErrorMsg) := by
  have hsum := sum1_add_sum2 rows
  by_cases h1 : sum1 rows = sum2 rows
  · -- balanced counts: the symmetric region (M > 3 rules the triangular flags out)
    have hs : isSymmetric rows = true := (isSymmetric_iff rows).mpr h1
    have hu : isUpperTriangular rows = false := by
      cases hq : isUpperTriangular rows
      · rfl
      · exfalso
        have := (isUpperTriangular_iff rows).mp hq
        omega
    have hl : isLowerTriangular rows = false := by
      cases hq : isLowerTriangular rows
      · rfl
      · exfalso
        have := (isLowerTriangular_iff rows).mp hq
        omega
    have hc : classify rows = .sparseSymmetric := by simp [classify, hu, hl, hs]
    have hb : ¬buildEdges rows = .error classificationErrorMsg := by
      rw [buildEdges_error_iff]
      simp [hs]
    refine ⟨by simp [hc, h1], ?_, ?_, ?_⟩
    · simp [hc]
      omega
    · simp [hc]
      omega
    · simp [hc]
      exact hb
  · by_cases h2 : sum1 rows = 0
    · -- upper-triangular region
      have h2' : sum2 rows = rows.length := by omega
      have hu : isUpperTriangular rows = true :=
        (isUpperTriangular_iff rows).mpr ⟨h2, h2'⟩
      have hc : classify rows = .sparseUpperTriangular := by simp [classify, hu]
      have hb : ¬buildEdges rows = .error classificationErrorMsg := by
        rw [buildEdges_error_iff]
        simp [hu]
      refine ⟨?_, by simp [hc, h2, h2'], ?_, ?_⟩
      · simp [hc]
        exact h1
      · simp [hc]
        omega
      · simp [hc]
        exact hb
    · by_cases h3 : sum2 rows = 0
      · -- lower-triangular region
        have h3' : sum1 rows = rows.length := by omega
        have hl : isLowerTriangular rows = true :=
          (isLowerTriangular_iff rows).mpr ⟨h3', h3⟩
        have hu : isUpperTriangular rows = false := by
          cases hq : isUpperTriangular rows
          · rfl
          · exfalso
            have := (isUpperTriangular_iff rows).mp hq
            omega
        have hc : classify rows = .sparseLowerTriangular := by simp [classify, hu, hl]
        have hb : ¬buildEdges rows = .error classificationErrorMsg := by
          rw [buildEdges_error_iff]
          simp [hl]
        refine ⟨?_, ?_, by simp [hc, h3, h3'], ?_⟩
        · simp [hc]
          exact h1
        · simp [hc]
          omega
        · simp [hc]
          exact hb
      · -- invalid region: all three flags are false
        have hs : isSymmetric rows = false := by
          cases hq : isSymmetric rows
          · rfl
          · exact absurd ((isSymmetric_iff rows).mp hq) h1
        have hu : isUpperTriangular rows = false := by
          cases hq : isUpperTriangular rows
          · rfl
          · exact absurd ((isUpperTriangular_iff rows).mp hq).1 h2
        have hl : isLowerTriangular rows = false := by
          cases hq : isLowerTriangular rows
          · rfl
          · exact absurd ((isLowerTriangular_iff rows).mp hq).2 h3
        have hc : classify rows = .sparseInvalid := by simp [classify, hu, hl, hs]
        have hb : buildEdges rows = .error classificationErrorMsg :=
          (buildEdges_error_iff rows).mpr ⟨hs, hu, hl⟩
        refine ⟨?_, ?_, ?_, by simp [hc, hb]⟩
        · simp [hc]
          exact h1
        · simp [hc]
          omega
        · simp [hc]
          omega

/-- C1 witness: the four-row balanced triplet list of the spec's end-to-end
scenario has more than 3 rows, so the classification dichotomy applies to
it. -/
theorem claim_C1_classification_witness :
    (classify [(1,2,0.5),(2,3,0.5),(2,1,0.5),(3,2,0.5)] = .sparseSymmetric ↔
      sum1 [(1,2,0.5),(2,3,0.5),(2,1,0.5),(3,2,0.5)] = sum2 [(1,2,0.5),(2,3,0.5),(2,1,0.5),(3,2,0.5)]) ∧
    (classify [(1,2,0.5),(2,3,0.5),(2,1,0.5),(3,2,0.5)] = .sparseUpperTriangular ↔
      sum1 [(1,2,0.5),(2,3,0.5),(2,1,0.5),(3,2,0.5)] = 0 ∧
        sum2 [(1,2,0.5),(2,3,0.5),(2,1,0.5),(3,2,0.5)] = 4) ∧
    (classify [(1,2,0.5),(2,3,0.5),(2,1,0.5),(3,2,0.5)] = .sparseLowerTriangular ↔
      sum1 [(1,2,0.5),(2,3,0.5),(2,1,0.5),(3,2,0.5)] = 4 ∧
        sum2 [(1,2,0.5),(2,3,0.5),(2,1,0.5),(3,2,0.5)] = 0) ∧
    (classify [(1,2,0.5),(2,3,0.5),(2,1,0.5),(3,2,0.5)] = .sparseInvalid ↔
      buildEdges [(1,2,0.5),(2,3,0.5),(2,1,0.5),(3,2,0.5)] = .error classificationErrorMsg) :=
  claim_C1_classification [(1,2,0.5),(2,3,0.5),(2,1,0.5),(3,2,0.5)] (by decide)

/-- C5: for a triplet list classified SparseSymmetric, the edge builder emits
exactly the triplets with row-index < column-index (1-based), each as
`Edge(c-1, r-1, w)`, in input-row order, dropping every triplet with
row-index ≥ column-index (diagonal entries included). -/
theorem claim_C5_symmetric_edges (rows : List Triplet)
    (h : classify rows = .sparseSymmetric) :
    buildEdges rows =
      .ok ((rows.filter (fun t => decide (t.1 < t.2.1))).map edgeOfTriplet) := by
  have hu : isUpperTriangular rows = false := by
    cases hq : isUpperTriangular rows
    · rfl
    · simp [classify, hq] at h
  have hl : isLowerTriangular rows = false := by
    cases hq : isLowerTriangular rows
    · rfl
    · simp [classify, hu, hq] at h
  have hs : isSymmetric rows = true := by
    cases hq : isSymmetric rows
    · simp [classify, hu, hl, hq] at h
    · rfl
  rw [buildEdges_ok rows (by simp [hs])]
  rw [hu, hl, hs, emitEdge_symmetric, filterMap_ite]

/-- C5 witness: the spec's end-to-end triplet input is classified symmetric
and yields exactly the two edges `(1,0,0.5)` and `(2,1,0.5)`. -/
theorem claim_C5_symmetric_edges_witness :
    classify [(1,2,0.5),(2,3,0.5),(2,1,0.5),(3,2,0.5)] = .sparseSymmetric ∧
    buildEdges [(1,2,0.5),(2,3,0.5),(2,1,0.5),(3,2,0.5)] =
      .ok [⟨1,0,0.5⟩, ⟨2,1,0.5⟩] :=
  ⟨by decide,
    (claim_C5_symmetric_edges [(1,2,0.5),(2,3,0.5),(2,1,0.5),(3,2,0.5)]
      (by decide)).trans (by decide)⟩

/-- C6: for a triplet list classified SparseUpperTriangular or
SparseLowerTriangular, the edge builder emits every one of the M triplets
`(r, c, w)` as `Edge(c-1, r-1, w)` — always (column, row) order, whichever
triangular form was detected — with nothing filtered out, weights unchanged,
in input-row order. -/
theorem claim_C6_triangular_edges (rows : List Triplet)
    (h : classify rows = .sparseUpperTriangular ∨
      classify rows = .sparseLowerTriangular) :
    buildEdges rows = .ok (rows.map edgeOfTriplet) := by
  have hul : isUpperTriangular rows = true ∨ isLowerTriangular rows = true := by
    rcases h with h | h
    · left
      cases hq : isUpperTriangular rows
      · exfalso
        simp [classify, hq] at h
        split_ifs at h
      · rfl
    · right
      cases hq : isLowerTriangular rows
      · exfalso
        simp [classify, hq] at h
        split_ifs at h
      · rfl
  have hcond : ¬(!isSymmetric rows && !isUpperTriangular rows &&
      !isLowerTriangular rows) = true := by
    rcases hul with hq | hq <;> simp [hq]
  rw [buildEdges_ok rows hcond, emitEdge_triangular _ _ _ hul, filterMap_some]

/-- C6 witness: a purely upper-triangular four-row triplet list is emitted in
full, each row as `Edge(c-1, r-1, w)`, in input order. -/
theorem claim_C6_triangular_edges_witness :
    classify [(1,2,0.5),(1,3,0.25),(2,3,0.75),(1,4,0.5)] = .sparseUpperTriangular ∧
    buildEdges [(1,2,0.5),(1,3,0.25),(2,3,0.75),(1,4,0.5)] =
      .ok [⟨1,0,0.5⟩, ⟨2,0,0.25⟩, ⟨2,1,0.75⟩, ⟨3,0,0.5⟩] :=
  ⟨by decide,
    (claim_C6_triangular_edges [(1,2,0.5),(1,3,0.25),(2,3,0.75),(1,4,0.5)]
      (Or.inl (by decide))).trans (by decide)⟩

/-- Prepending the empty string is the identity. -/
theorem string_empty_append (s : String) : "" ++ s = s := by
  cases s
  rfl

/-- Evaluating `mexFunction` once the parse succeeded. -/
theorem mexFunction_of_ok (nOutputArgs : Nat) (w : MxArray) (rest : List MxArray)
    (parsed : String) (hp : parse_args nOutputArgs (w :: rest) = .ok parsed) :
    mexFunction nOutputArgs (w :: rest) =
      if (decide (3 < w.m) && w.n == 3) = true then
        match buildEdges (triplets w) with
        | .error msg => .aborted msg
        | .ok edges => .engineCall (.sparse edges) (parsed ++ "--two-level")
      else .engineCall (.dense w.re w.n) (parsed ++ "--two-level") := by
  unfold mexFunction
  rw [hp]

/-- `valueOutOfRange` at name `n`. -/
theorem valueOutOfRange_n (v : ℚ) : valueOutOfRange "n" v = decide (v < 0) := by
  simp [valueOutOfRange]

/-- `valueOutOfRange` at name `p`. -/
theorem valueOutOfRange_p (v : ℚ) :
    valueOutOfRange "p" v = decide (v < 0 ∨ 1 < v) := by
  simp [valueOutOfRange]

/-- `valueOutOfRange` at name `y`. -/
theorem valueOutOfRange_y (v : ℚ) :
    valueOutOfRange "y" v = decide (v < 0 ∨ 1 < v) := by
  simp [valueOutOfRange]

/-- `valueOutOfRange` at name `markov-time`. -/
theorem valueOutOfRange_mt (v : ℚ) :
    valueOutOfRange "markov-time" v = decide (v < 0) := by
  simp [valueOutOfRange]

/-- C3: for a pair whose name is textual and whose value is not, the walk
fails with UnknownArgument at the name's position when the lower-cased name is
none of N, p, y, markov-time; fails with InvalidArgumentValue at the value's
position (one past the name's) when the name is recognised but the value is
out of its documented range; and otherwise accepts the pair, appends its flag
chunk, and advances the walk by two positions. -/
theorem claim_C3_pair_validation (partype parval : MxArray) (rest : List MxArray)
    (pos : Nat) (hpt : partype.isChar = true) (hpv : parval.isChar = false) :
    ((lowerString partype.strVal ≠ "n" ∧ lowerString partype.strVal ≠ "p" ∧
        lowerString partype.strVal ≠ "y" ∧
        lowerString partype.strVal ≠ "markov-time") →
      parseLoop (partype :: parval :: rest) pos = .error (.argUnknown, pos)) ∧
    ((lowerString partype.strVal = "n" ∨ lowerString partype.strVal = "p" ∨
        lowerString partype.strVal = "y" ∨
        lowerString partype.strVal = "markov-time") →
      (valueOutOfRange (lowerString partype.strVal) (parval.re.headD 0) = true →
        parseLoop (partype :: parval :: rest) pos = .error (.argValue, pos + 1)) ∧
      (valueOutOfRange (lowerString partype.strVal) (parval.re.headD 0) = false →
        parseLoop (partype :: parval :: rest) pos =
          (parseLoop rest (pos + 2)).map
            (fun s =>
              flagChunk (lowerString partype.strVal) (parval.re.headD 0) ++ s))) := by
  have e1 : lowerString "N" = "n" := by decide
  have e2 : lowerString "p" = "p" := by decide
  have e3 : lowerString "y" = "y" := by decide
  have e4 : lowerString "markov-time" = "markov-time" := by decide
  simp only [parseLoop, hpt, hpv, Bool.not_false, Bool.and_self, if_true, e1, e2, e3, e4]
  constructor
  · rintro ⟨n1, n2, n3, n4⟩
    rw [if_neg n1, if_neg n2, if_neg n3, if_neg n4]
  · rintro (h | h | h | h)
    · rw [if_pos h]
      constructor
      · intro hv
        rw [h, valueOutOfRange_n] at hv
        rw [if_pos (of_decide_eq_true hv)]
      · intro hv
        rw [h, valueOutOfRange_n] at hv
        rw [if_neg (of_decide_eq_false hv)]
        congr 1
        funext s
        simp [flagChunk, h, String.append_assoc]
    · rw [if_neg (by rw [h]; decide), if_pos h]
      constructor
      · intro hv
        rw [h, valueOutOfRange_p] at hv
        rw [if_pos (of_decide_eq_true hv)]
      · intro hv
        rw [h, valueOutOfRange_p] at hv
        rw [if_neg (of_decide_eq_false hv)]
        congr 1
        funext s
        simp [flagChunk, h, String.append_assoc]
    · rw [if_neg (by rw [h]; decide), if_neg (by rw [h]; decide), if_pos h]
      constructor
      · intro hv
        rw [h, valueOutOfRange_y] at hv
        rw [if_pos (of_decide_eq_true hv)]
      · intro hv
        rw [h, valueOutOfRange_y] at hv
        rw [if_neg (of_decide_eq_false hv)]
        congr 1
        funext s
        simp [flagChunk, h, String.append_assoc]
    · rw [if_neg (by rw [h]; decide), if_neg (by rw [h]; decide),
        if_neg (by rw [h]; decide), if_pos h]
      constructor
      · intro hv
        rw [h, valueOutOfRange_mt] at hv
        rw [if_pos (of_decide_eq_true hv)]
      · intro hv
        rw [h, valueOutOfRange_mt] at hv
        rw [if_neg (of_decide_eq_false hv)]
        congr 1
        funext s
        simp [flagChunk, h, String.append_assoc]

/-- C3 witness: an unknown name fails at the name's position, an
out-of-range `p` value fails at the value's position, and an accepted
`("N", 5)` pair emits its flag. -/
theorem claim_C3_pair_validation_witness :
    parseLoop [charArg "foo", numArg 1] 1 = .error (.argUnknown, 1) ∧
    parseLoop [charArg "p", numArg 1.5] 1 = .error (.argValue, 2) ∧
    parseLoop [charArg "N", numArg 5] 1 = .ok " -N5.000000 " :=
  ⟨(claim_C3_pair_validation (charArg "foo") (numArg 1) [] 1 rfl rfl).1 (by decide),
   ((claim_C3_pair_validation (charArg "p") (numArg 1.5) [] 1 rfl rfl).2
      (by decide)).1 (by decide),
   (((claim_C3_pair_validation (charArg "N") (numArg 5) [] 1 rfl rfl).2
      (by decide)).2 (by decide)).trans (by decide)⟩

/-- C4: the walk over the arguments after the matrix starts at position 1 and
advances two at a time; a lone trailing argument fails with DanglingArgument
at its position, and a pair whose name is not textual or whose value is
textual fails with WrongArgumentType at the pair's starting position. -/
theorem claim_C4_walk_structure (w a b : MxArray) (rest : List MxArray)
    (nOutputArgs pos : Nat) (hout : nOutputArgs ≤ 2)
    (hmat : matrixCheckFails w = false)
    (hab : a.isChar = false ∨ b.isChar = true) :
    parse_args nOutputArgs (w :: rest) = parseLoop rest 1 ∧
    parseLoop [a] pos = .error (.argEmpty, pos) ∧
    parseLoop (a :: b :: rest) pos = .error (.argType, pos) := by
  refine ⟨?_, rfl, ?_⟩
  · simp only [parse_args]
    rw [if_neg (by omega), if_neg (by simp [hmat])]
  · simp only [parseLoop]
    rcases hab with h | h
    · rw [if_neg (by simp [h])]
    · rw [if_neg (by simp [h])]

/-- C4 witness: with a valid 1×1 matrix and two outputs, the walk starts at
position 1; a lone trailing numeric argument dangles, and a (numeric,
textual) pair is a type error at its starting position. -/
theorem claim_C4_walk_structure_witness :
    parse_args 2 [numArg 0] = parseLoop [] 1 ∧
    parseLoop [numArg 1] 1 = .error (.argEmpty, 1) ∧
    parseLoop [numArg 1, charArg "x"] 1 = .error (.argType, 1) :=
  claim_C4_walk_structure (numArg 0) (numArg 1) (charArg "x") [] 2 1
    (by decide) (by decide) (Or.inl (by decide))

/-- C7: whenever the engine is invoked, its option string is exactly the
parsed flag string (flags in argument order) with the fixed `--two-level`
flag appended unconditionally at the end. -/
theorem claim_C7_two_level (nOutputArgs : Nat) (inputArgs : List MxArray)
    (parsed : String) (g : GraphInput) (options : String)
    (hp : parse_args nOutputArgs inputArgs = .ok parsed)
    (h : mexFunction nOutputArgs inputArgs = .engineCall g options) :
    options = parsed ++ "--two-level" := by
  cases inputArgs with
  | nil => simp [parse_args] at hp
  | cons w rest =>
    rw [mexFunction_of_ok nOutputArgs w rest parsed hp] at h
    by_cases hsp : (decide (3 < w.m) && w.n == 3) = true
    · rw [if_pos hsp] at h
      cases hbe : buildEdges (triplets w) with
      | error msg =>
        rw [hbe] at h
        simp at h
      | ok edges =>
        rw [hbe] at h
        simp only [MexOutcome.engineCall.injEq] at h
        exact h.2.symm
    · rw [if_neg hsp] at h
      simp only [MexOutcome.engineCall.injEq] at h
      exact h.2.symm

/-- C7 witness: for the input `("N", 5, "p", 0.2)` after a valid dense
matrix, the engine's option string is the parsed flags, `-N5.000000` before
`-p0.200000`, with `--two-level` appended at the end. -/
theorem claim_C7_two_level_witness :
    " -N5.000000  -p0.200000 --two-level" =
      " -N5.000000  -p0.200000 " ++ "--two-level" :=
  claim_C7_two_level 2 [numArg 0, charArg "N", numArg 5, charArg "p", numArg 0.2]
    " -N5.000000  -p0.200000 " (.dense [0] 1)
    " -N5.000000  -p0.200000 --two-level" (by decide) (by decide)

/-- C10: an accepted `("N", v)` pair renders its value through the
`std::to_string` model with exactly six fractional digits, framed by single
spaces; in particular `("N", 5)` emits `" -N5.000000 "` (not `-N5`), and in
the resulting configuration string `-N5` is not a whole space-delimited
token but only a proper head of the token `-N5.000000`. -/
theorem claim_C10_to_string_rendering (v : ℚ) (rest : List MxArray) (pos : Nat)
    (t : Nat) (hv : ¬v < 0) (ht : ⌊v * 1000000 + 1 / 2⌋ = (t : ℤ)) :
    parseLoop (charArg "N" :: numArg v :: rest) pos =
      (parseLoop rest (pos + 2)).map (fun s => " -N" ++ toString6 v ++ " " ++ s) ∧
    toString6 v = toString (t / 1000000) ++ "." ++ pad6 (t % 1000000) ∧
    (pad6 (t % 1000000)).length = 6 ∧
    parseLoop [charArg "N", numArg 5] 1 = .ok " -N5.000000 " ∧
    mexFunction 2 [numArg 0, charArg "N", numArg 5] =
      .engineCall (.dense [0] 1) " -N5.000000 --two-level" ∧
    "-N5" ∉ tokens " -N5.000000 --two-level" ∧
    "-N5.000000" ∈ tokens " -N5.000000 --two-level" ∧
    "-N5.000000".data.take 3 = "-N5".data := by
  refine ⟨?_, ?_, rfl, by decide, by decide, by decide, by decide, by decide⟩
  · simp only [parseLoop, charArg, numArg, List.headD_cons]
    rw [if_neg hv]
    simp
  · simp only [toString6]
    rw [ht]
    rw [if_neg (by omega), string_empty_append]
    simp

/-- C10 witness: at `v = 5` the floor of `v·10⁶ + ½` is `5000000`, the chunk
equation holds, and the rendered token facts are concrete. -/
theorem claim_C10_to_string_rendering_witness :
    (parseLoop [charArg "N", numArg 5] 1 =
      (parseLoop [] 3).map (fun s => " -N" ++ toString6 5 ++ " " ++ s)) ∧
    toString6 5 = toString (5000000 / 1000000) ++ "." ++ pad6 (5000000 % 1000000) ∧
    (pad6 (5000000 % 1000000)).length = 6 ∧
    parseLoop [charArg "N", numArg 5] 1 = .ok " -N5.000000 " ∧
    mexFunction 2 [numArg 0, charArg "N", numArg 5] =
      .engineCall (.dense [0] 1) " -N5.000000 --two-level" ∧
    "-N5" ∉ tokens " -N5.000000 --two-level" ∧
    "-N5.000000" ∈ tokens " -N5.000000 --two-level" ∧
    "-N5.000000".data.take 3 = "-N5".data :=
  claim_C10_to_string_rendering 5 [] 1 5000000 (by decide) (by decide)

/-- The loop of `parse_args` only ever reports dangling-argument,
invalid-value, unknown-name, or wrong-type errors. -/
theorem parseLoop_error_kind :
    ∀ (args : List MxArray) (pos : Nat) (e : ErrorType) (p : Nat),
      parseLoop args pos = .error (e, p) →
      e = .argEmpty ∨ e = .argValue ∨ e = .argUnknown ∨ e = .argType
  | [], _, _, _ => by
    intro h
    simp [parseLoop] at h
  | [a], pos, e, p => by
    intro h
    simp only [parseLoop, Except.error.injEq, Prod.mk.injEq] at h
    rcases h with ⟨rfl, rfl⟩
    simp
  | a :: b :: rest, pos, e, p => by
    intro h
    simp only [parseLoop] at h
    split_ifs at h
    all_goals
      first
      | (simp only [Except.error.injEq, Prod.mk.injEq] at h
         rcases h with ⟨rfl, rfl⟩
         simp)
      | (cases hr : parseLoop rest (pos + 2) with
          | error ep =>
            rw [hr] at h
            simp only [Except.map] at h
            have hep : ep = (e, p) := by simpa using h
            exact parseLoop_error_kind rest (pos + 2) e p (by rw [hr, hep])
          | ok sres =>
            rw [hr] at h
            simp [Except.map] at h)

/-- `parse_args` never reports the `NO_ERROR` tag as an error. -/
theorem parse_args_error_ne_noError (nOutputArgs : Nat) (inputArgs : List MxArray)
    (e : ErrorType) (p : Nat) (h : parse_args nOutputArgs inputArgs = .error (e, p)) :
    e ≠ .noError := by
  cases inputArgs with
  | nil =>
    simp only [parse_args, Except.error.injEq, Prod.mk.injEq] at h
    rcases h with ⟨rfl, rfl⟩
    simp
  | cons w rest =>
    simp only [parse_args] at h
    split_ifs at h
    · simp only [Except.error.injEq, Prod.mk.injEq] at h
      rcases h with ⟨rfl, rfl⟩
      simp
    · simp only [Except.error.injEq, Prod.mk.injEq] at h
      rcases h with ⟨rfl, rfl⟩
      simp
    · rcases parseLoop_error_kind rest 1 e p h with rfl | rfl | rfl | rfl <;> simp

/-- Every `parse_args` failure message starts with the 19-character header
`"Error at argument: "`. -/
theorem mexErrorMessage_head (e : ErrorType) (pos : Nat) :
    (mexErrorMessage e pos).data.take 19 = ("Error at argument: ").data := by
  unfold mexErrorMessage
  simp only [String.data_append, List.append_assoc]
  exact List.take_left' (by decide)

/-- The only failure `buildEdges` reports is the fixed classification
message. -/
theorem buildEdges_error_msg (rows : List Triplet) (m : String)
    (h : buildEdges rows = .error m) : m = classificationErrorMsg := by
  simp only [buildEdges] at h
  split_ifs at h
  simpa using h.symm

/-- C2 (amended): an aborting invocation prints a single message and returns
no outputs; for every `parse_args` failure the message is exactly
`"Error at argument: <position>: <message>"` with `<message>` drawn from the
`error_strings` table at a non-`NO_ERROR` kind, while the triplet
classification failure aborts with the fixed classification-exception text
instead — every abort message is of one of these two shapes. -/
theorem claim_C2_error_messages (nOutputArgs : Nat) (inputArgs : List MxArray)
    (msg : String) (e : ErrorType) (pos : Nat)
    (h : mexFunction nOutputArgs inputArgs = .aborted msg) :
    (msg.data.take 19 = ("Error at argument: ").data ∨
      msg = classificationErrorMsg) ∧
    (parse_args nOutputArgs inputArgs = .error (e, pos) →
      msg = mexErrorMessage e pos ∧ e ≠ .noError) := by
  cases hp : parse_args nOutputArgs inputArgs with
  | error ep =>
    obtain ⟨e', p'⟩ := ep
    have hm : mexFunction nOutputArgs inputArgs = .aborted (mexErrorMessage e' p') := by
      unfold mexFunction
      rw [hp]
    rw [hm] at h
    simp only [MexOutcome.aborted.injEq] at h
    constructor
    · left
      rw [← h]
      exact mexErrorMessage_head e' p'
    · intro hp2
      simp only [Except.error.injEq, Prod.mk.injEq] at hp2
      obtain ⟨he, hpos⟩ := hp2
      subst he
      subst hpos
      exact ⟨h.symm, parse_args_error_ne_noError nOutputArgs inputArgs _ _ hp⟩
  | ok opts =>
    cases inputArgs with
    | nil => simp [parse_args] at hp
    | cons w rest =>
      rw [mexFunction_of_ok nOutputArgs w rest opts hp] at h
      refine ⟨?_, ?_⟩
      · by_cases hsp : (decide (3 < w.m) && w.n == 3) = true
        · rw [if_pos hsp] at h
          cases hbe : buildEdges (triplets w) with
          | error m2 =>
            rw [hbe] at h
            simp only [MexOutcome.aborted.injEq] at h
            right
            rw [← h]
            exact buildEdges_error_msg (triplets w) m2 hbe
          | ok edges =>
            rw [hbe] at h
            simp at h
        · rw [if_neg hsp] at h
          simp at h
      · intro hp2
        simp at hp2

/-- C2 counterexample: for the unbalanced 4×3 triplet input the invocation
aborts, but the message is the classification-exception text, which does not
begin with the 19-character header every `"Error at argument: …"` message
starts with — so it is not of the claimed form. -/
theorem claim_C2_counterexample :
    mexFunction 2 [unbalancedTriplet] = .aborted classificationErrorMsg ∧
    classificationErrorMsg.data.take 19 ≠ ("Error at argument: ").data :=
  ⟨by decide, by decide⟩

/-- C2 witness: a concrete invocation with three requested outputs aborts
with the formatted TooManyOutputs message. -/
theorem claim_C2_error_messages_witness :
    (("Error at argument: 0: Too many output arguments.").data.take 19 =
        ("Error at argument: ").data ∨
      "Error at argument: 0: Too many output arguments." = classificationErrorMsg) ∧
    ("Error at argument: 0: Too many output arguments." =
        mexErrorMessage .tooManyOutputArgs 0 ∧
      ErrorType.tooManyOutputArgs ≠ .noError) :=
  have h := claim_C2_error_messages 3 [numArg 0]
    "Error at argument: 0: Too many output arguments." .tooManyOutputArgs 0 (by decide)
  ⟨h.1, h.2 (by decide)⟩

/-- `applyLeaves` never changes the length of the membership vector. -/
theorem applyLeaves_length (ls : List Leaf) :
    ∀ (mem mem' : List ℚ), applyLeaves ls mem = some mem' →
      mem'.length = mem.length := by
  induction ls with
  | nil =>
    intro mem mem' h
    simp only [applyLeaves, Option.some.injEq] at h
    rw [← h]
  | cons l ls ih =>
    intro mem mem' h
    simp only [applyLeaves] at h
    split_ifs at h with hb
    have := ih _ _ h
    rwa [List.length_set] at this

/-- A leaf whose original index is out of bounds makes `applyLeaves` fail. -/
theorem applyLeaves_oob (ls : List Leaf) :
    ∀ (mem : List ℚ) (l : Leaf), l ∈ ls → mem.length ≤ l.originalLeafIndex →
      applyLeaves ls mem = none := by
  induction ls with
  | nil =>
    intro mem l hl
    cases hl
  | cons a ls ih =>
    intro mem l hl hge
    simp only [applyLeaves]
    rcases List.mem_cons.mp hl with rfl | hl'
    · rw [if_neg (by omega)]
    · by_cases hb : a.originalLeafIndex < mem.length
      · rw [if_pos hb]
        exact ih _ l hl' (by rwa [List.length_set])
      · rw [if_neg hb]

/-- C8: the output mapper builds a membership sequence with one entry per
graph node, writes `membership[originalIndex] = clusterIndex` for every leaf,
aborts (rather than writing out of bounds) when a leaf's original index is
outside `[0, N)`, and copies the codelength verbatim; the spec's example
leaves `{(2,0),(0,1),(1,1)}` with `N = 3` produce membership `[1,1,0]`. -/
theorem claim_C8_result_mapper (nNodes : Nat) (res : EngineResult)
    (mem : List ℚ) (cl : ℚ) (l : Leaf) :
    (mapResult nNodes res = some (mem, cl) →
      mem.length = nNodes ∧ cl = res.codelength) ∧
    (l ∈ res.leaves → nNodes ≤ l.originalLeafIndex →
      mapResult nNodes res = none) ∧
    mapResult 3 ⟨[⟨2, 0⟩, ⟨0, 1⟩, ⟨1, 1⟩], cl⟩ = some ([1, 1, 0], cl) := by
  refine ⟨?_, ?_, ?_⟩
  · intro h
    cases ha : applyLeaves res.leaves (List.replicate nNodes 0) with
    | none => simp [mapResult, ha] at h
    | some mem0 =>
      simp only [mapResult, ha, Option.map_some, Option.some.injEq,
        Prod.mk.injEq] at h
      obtain ⟨rfl, rfl⟩ := h
      have := applyLeaves_length res.leaves _ _ ha
      rw [List.length_replicate] at this
      exact ⟨this, rfl⟩
  · intro hl hge
    simp only [mapResult]
    rw [applyLeaves_oob res.leaves _ l hl (by simpa using hge)]
    rfl
  · simp [mapResult, applyLeaves, List.replicate]

/-- C8 witness: an out-of-bounds leaf aborts the mapping, and the spec's
example produces membership `[1,1,0]` with the codelength passed through. -/
theorem claim_C8_result_mapper_witness :
    mapResult 1 ⟨[⟨5, 0⟩], 2⟩ = none ∧
    mapResult 3 ⟨[⟨2, 0⟩, ⟨0, 1⟩, ⟨1, 1⟩], 0.5⟩ = some ([1, 1, 0], 0.5) :=
  ⟨(claim_C8_result_mapper 1 ⟨[⟨5, 0⟩], 2⟩ [] 2 ⟨5, 0⟩).2.1 (by decide) (by decide),
   (claim_C8_result_mapper 3 ⟨[⟨2, 0⟩, ⟨0, 1⟩, ⟨1, 1⟩], 0.5⟩ [] 0.5 ⟨0, 0⟩).2.2⟩

/-- C9: dense-path validation is value-independent — any square, non-complex,
non-empty, numeric, non-cell matrix passes validation and is handed to the
engine unchanged whatever its entries are; no numeric-symmetry check is ever
performed on the dense path. -/
theorem claim_C9_dense_value_independent (n nOutputArgs : Nat) (data : List ℚ)
    (hn : n ≠ 0) (hout : nOutputArgs ≤ 2) :
    matrixCheckFails ⟨n, n, false, false, false, true, "", data⟩ = false ∧
    mexFunction nOutputArgs [⟨n, n, false, false, false, true, "", data⟩] =
      .engineCall (.dense data n) "--two-level" := by
  have hm : matrixCheckFails ⟨n, n, false, false, false, true, "", data⟩ = false := by
    simp [matrixCheckFails, feedingSparseMatrix, hn]
  have hp : parse_args nOutputArgs [⟨n, n, false, false, false, true, "", data⟩] =
      .ok "" := by
    simp only [parse_args]
    rw [if_neg (by omega), if_neg (by simp [hm])]
    rfl
  refine ⟨hm, ?_⟩
  rw [mexFunction_of_ok nOutputArgs _ [] "" hp]
  have hcond : ¬((decide (3 < (⟨n, n, false, false, false, true, "", data⟩ : MxArray).m) &&
      (⟨n, n, false, false, false, true, "", data⟩ : MxArray).n == 3) = true) := by
    simp only [Bool.and_eq_true, decide_eq_true_eq, beq_iff_eq]
    rintro ⟨h3, rfl⟩
    omega
  rw [if_neg hcond, string_empty_append]

/-- C9 witness: the numerically asymmetric 2×2 matrix `[[0,2],[1,0]]` (in
column-major order) passes validation and is passed through unchanged. -/
theorem claim_C9_dense_value_independent_witness :
    matrixCheckFails ⟨2, 2, false, false, false, true, "", [0, 1, 2, 0]⟩ = false ∧
    mexFunction 2 [⟨2, 2, false, false, false, true, "", [0, 1, 2, 0]⟩] =
      .engineCall (.dense [0, 1, 2, 0] 2) "--two-level" :=
  claim_C9_dense_value_independent 2 2 [0, 1, 2, 0] (by decide) (by decide)

end Infomapmex
